import Mathlib

/-!
Shallow embedding of `src/get_funding_rates.py` (class `FundingRateCollector`).

Network effects are modelled by an explicit environment (`Env`) that fixes,
for each request the code could make, the response the outside world gives:
the direct-HTTP KuCoin call is an `KuCoinHttpResult`, a generic ccxt
`fetch_funding_rate` call is a `FetchOutcome`, and asyncio-level task faults
(the `isinstance(result, Exception)` arms after
`asyncio.gather(..., return_exceptions=True)`) are injected via per-task
`Option String` fault messages.  Numeric JSON values are modelled as `Rat`
(the Python code only passes floats through), absent JSON fields as `none`.
-/

/-- The uniform output record built by the collector.  Field names follow the
Python dict keys: `exchange`, `symbol`, `perpetual_symbol`, `funding_rate`,
`funding_time`, `next_funding_time`, `timestamp`, `success`, `error`. -/
structure FundingRateRecord where
  exchange : String
  symbol : String
  perpetual_symbol : String
  funding_rate : Option Rat
  funding_time : Option String
  next_funding_time : Option String
  timestamp : Option Int
  success : Bool
  error : Option String
deriving Repr, DecidableEq

/-- The ccxt `fetch_funding_rate` payload fields the collector reads
(lines 138-141 of the source): `fundingRate`, `fundingDatetime`,
`nextFundingDatetime`, `timestamp`; each may be absent. -/
structure CcxtPayload where
  fundingRate : Option Rat
  fundingDatetime : Option String
  nextFundingDatetime : Option String
  timestamp : Option Int
deriving Repr, DecidableEq

/-- Outcome of one ccxt `fetch_funding_rate` call: a payload, or a raised
exception whose `str(e)` is the given message. -/
inductive FetchOutcome where
  | payload (p : CcxtPayload)
  | raise (msg : String)
deriving Repr, DecidableEq

/-- The `data` object of the KuCoin funding-rate envelope:
`{value: string, timePoint: number}`, either field possibly absent. -/
structure KuCoinData where
  value : Option Rat
  timePoint : Option Int
deriving Repr, DecidableEq

/-- The KuCoin JSON envelope `{code, data, msg}`; any field may be absent
(`data: null` and an absent `data` key coincide as `none`). -/
structure KuCoinEnvelope where
  code : Option String
  data : Option KuCoinData
  msg : Option String
deriving Repr, DecidableEq

/-- One HTTP response from the KuCoin funding-rate endpoint: status code,
the raw body text (used in the `HTTP {status}` error string), and the parsed
JSON envelope. -/
structure KuCoinHttpResponse where
  status : Nat
  bodyText : String
  json : KuCoinEnvelope
deriving Repr, DecidableEq

/-- Result of the direct KuCoin HTTP call: a response, or an exception
(network failure, JSON parse failure, ...) caught by the adapter's
`except Exception as e` arm with message `str(e)`. -/
inductive KuCoinHttpResult where
  | resp (r : KuCoinHttpResponse)
  | exn (msg : String)
deriving Repr, DecidableEq

/-- Python truthiness of the value stored under the `data` key: `None` (or an
absent key) and the empty object `{}` are falsy, an object with at least one
field is truthy.  Models the `and data.get('data')` guard on line 60. -/
def kuCoinDataTruthy : Option KuCoinData → Bool
  | some d => d.value.isSome || d.timePoint.isSome
  | none => false

/-- Models `funding_data.get('value', 0)` (line 62): the `value` field of the data
object, defaulting to `0` when absent. -/
def kuCoinDataValue : Option KuCoinData → Rat
  | some d => d.value.getD 0
  | none => 0

/-- Models `funding_data.get('timePoint')` (line 71). -/
def kuCoinDataTimePoint : Option KuCoinData → Option Int
  | some d => d.timePoint
  | none => none

/-- Models `symbol.replace('/USDT', '').replace('/USD', '')` (lines 51, 128, 148,
180): strip the quote suffix from a logical symbol. -/
def stripQuote (symbol : String) : String :=
  (symbol.replace "/USDT" "").replace "/USD" ""

/-- The configured exchange set, in the insertion order of the
`self.exchanges` dict (lines 18-27). -/
def exchangeNames : List String :=
  ["bitget", "huobi", "kucoin", "bybit", "bingx", "gateio", "okx", "mexc"]

/-- The keys of the hard-coded `symbol_mapping` dict inside
`get_perpetual_symbol` (lines 35-45); any other exchange name falls through
to the `.get` default. -/
def resolverKnownIds : List String :=
  ["bitget", "huobi", "kucoin", "bybit", "bingx", "gateio", "okx", "mexc", "binance"]

/-- Embedding of `FundingRateCollector.get_perpetual_symbol` (lines 33-46): the hard-coded
per-exchange symbol format, with the dict-`get` fallback `BASE/USDT` for any
exchange name outside the mapping. -/
def get_perpetual_symbol (exchange_name base_symbol : String) : String :=
  if exchange_name = "bitget" then base_symbol ++ "/USDT:USDT"
  else if exchange_name = "huobi" then base_symbol ++ "-USDT"
  else if exchange_name = "kucoin" then base_symbol ++ "USDTM"
  else if exchange_name = "bybit" then base_symbol ++ "USDT"
  else if exchange_name = "bingx" then base_symbol ++ "-USDT"
  else if exchange_name = "gateio" then base_symbol ++ "/USDT:USDT"
  else if exchange_name = "okx" then base_symbol ++ "-USDT-SWAP"
  else if exchange_name = "mexc" then base_symbol ++ "_USDT"
  else if exchange_name = "binance" then base_symbol ++ "USDT"
  else base_symbol ++ "/USDT"

/-- Embedding of `FundingRateCollector.get_kucoin_funding_rate` (lines 48-110): direct
HTTP adapter.  `res` is what the network interaction produced. -/
def get_kucoin_funding_rate (symbol : String) (res : KuCoinHttpResult) :
    FundingRateRecord :=
  match res with
  | .exn e =>
      { exchange := "kucoin", symbol := symbol,
        perpetual_symbol := stripQuote symbol ++ "USDTM",
        funding_rate := none, funding_time := none, next_funding_time := none,
        timestamp := none, success := false, error := some e }
  | .resp r =>
      if r.status = 200 then
        if r.json.code = some "200000" ∧ kuCoinDataTruthy r.json.data then
          { exchange := "kucoin", symbol := symbol,
            perpetual_symbol := stripQuote symbol ++ "USDTM",
            funding_rate := some (kuCoinDataValue r.json.data),
            funding_time := none, next_funding_time := none,
            timestamp := kuCoinDataTimePoint r.json.data,
            success := true, error := none }
        else
          { exchange := "kucoin", symbol := symbol,
            perpetual_symbol := stripQuote symbol ++ "USDTM",
            funding_rate := none, funding_time := none,
            next_funding_time := none, timestamp := none, success := false,
            error := some ("KuCoin API error: " ++ r.json.msg.getD "Unknown error") }
      else
        { exchange := "kucoin", symbol := symbol,
          perpetual_symbol := stripQuote symbol ++ "USDTM",
          funding_rate := none, funding_time := none,
          next_funding_time := none, timestamp := none, success := false,
          error := some ("HTTP " ++ toString r.status ++ ": " ++ r.bodyText) }

/-- The outside world as the collector sees it: the KuCoin HTTP result per
logical symbol, the ccxt fetch outcome per (exchange, perpetual symbol), and
asyncio-level task faults (`None` when the task runs to completion). -/
structure Env where
  kucoinResp : String → KuCoinHttpResult
  fetchOutcome : String → String → FetchOutcome
  exchangeTaskFault : String → String → Option String
  symbolTaskFault : String → Option String

/-- Embedding of `FundingRateCollector.get_funding_rate_single_exchange` (lines 112-160).
KuCoin is special-cased to the direct adapter; any exception from
`self.exchanges[exchange_name]` (a `KeyError` whose `str` is the quoted key)
or from `fetch_funding_rate` lands in the `except` arm, which rebuilds the
perpetual symbol and returns a failure record.  The advisory
`load_markets` call (lines 121-125) has no observable effect on the record
and is not modelled. -/
def get_funding_rate_single_exchange (env : Env) (exchange_name symbol : String) :
    FundingRateRecord :=
  if exchange_name = "kucoin" then
    get_kucoin_funding_rate symbol (env.kucoinResp symbol)
  else if exchange_name ∈ exchangeNames then
    match env.fetchOutcome exchange_name
        (get_perpetual_symbol exchange_name (stripQuote symbol)) with
    | .payload p =>
        { exchange := exchange_name, symbol := symbol,
          perpetual_symbol := get_perpetual_symbol exchange_name (stripQuote symbol),
          funding_rate := p.fundingRate, funding_time := p.fundingDatetime,
          next_funding_time := p.nextFundingDatetime,
          timestamp := p.timestamp, success := true, error := none }
    | .raise e =>
        { exchange := exchange_name, symbol := symbol,
          perpetual_symbol := get_perpetual_symbol exchange_name (stripQuote symbol),
          funding_rate := none, funding_time := none,
          next_funding_time := none, timestamp := none, success := false,
          error := some e }
  else
    { exchange := exchange_name, symbol := symbol,
      perpetual_symbol := get_perpetual_symbol exchange_name (stripQuote symbol),
      funding_rate := none, funding_time := none, next_funding_time := none,
      timestamp := none, success := false,
      error := some ("\x27" ++ exchange_name ++ "\x27") }

/-- Outcome of one asyncio task as seen by
`asyncio.gather(..., return_exceptions=True)`: the returned value, or the
exception the task raised (`str(result)` is the message). -/
inductive TaskOutcome where
  | ok (r : FundingRateRecord)
  | exn (msg : String)
deriving Repr, DecidableEq

/-- One per-exchange task spawned on line 168: it either suffers an
asyncio-level fault (modelled by `env.exchangeTaskFault`) or runs
`get_funding_rate_single_exchange` to completion. -/
def runExchangeTask (env : Env) (symbol exchange_name : String) : TaskOutcome :=
  match env.exchangeTaskFault symbol exchange_name with
  | some msg => .exn msg
  | none => .ok (get_funding_rate_single_exchange env exchange_name symbol)

/-- The `isinstance(result, Exception)` arm of the result loop
(lines 177-194): an exception is converted to a failure record for the
exchange at the same index, everything else is passed through. -/
def processResult (symbol exchange_name : String) : TaskOutcome → FundingRateRecord
  | .ok r => r
  | .exn msg =>
      { exchange := exchange_name, symbol := symbol,
        perpetual_symbol := get_perpetual_symbol exchange_name (stripQuote symbol),
        funding_rate := none, funding_time := none, next_funding_time := none,
        timestamp := none, success := false, error := some msg }

/-- Completion-order semantics of `asyncio.gather`: tasks finish in the order
given by `sched` (a list of task indices), each completion stores its outcome
in the slot of its own index. -/
def fillSlots (outs : List TaskOutcome) (sched : List Nat)
    (slots : List (Option TaskOutcome)) : List (Option TaskOutcome) :=
  sched.foldl
    (fun acc i =>
      match outs.get? i with
      | some o => acc.set i (some o)
      | none => acc)
    slots

/-- Model of how `asyncio.gather` reads the slots back in task order once every task has
completed; a slot no completion event ever filled reads as a still-pending
task (unreachable when `sched` covers every index). -/
def gatherSched (outs : List TaskOutcome) (sched : List Nat) : List TaskOutcome :=
  (fillSlots outs sched (List.replicate outs.length none)).map
    (fun o => o.getD (.exn "pending"))

/-- The record the fan-out loop contributes for one exchange: the task's
outcome pushed through the exception-conversion arm. -/
def perExchangeRecord (env : Env) (symbol exchange_name : String) :
    FundingRateRecord :=
  processResult symbol exchange_name (runExchangeTask env symbol exchange_name)

/-- Embedding of `FundingRateCollector.get_funding_rates_all_exchanges` (lines 162-196)
with the completion order made explicit: one task per configured exchange,
gathered under completion schedule `sched`, then the indexed result loop
pairs each outcome with the exchange name at its index. -/
def get_funding_rates_all_exchanges_sched (env : Env) (symbol : String)
    (sched : List Nat) : List FundingRateRecord :=
  let results := gatherSched (exchangeNames.map (runExchangeTask env symbol)) sched
  (exchangeNames.zip results).map (fun nr => processResult symbol nr.1 nr.2)

/-- Embedding of `FundingRateCollector.get_funding_rates_all_exchanges` under the
contract that results come back in task order. -/
def get_funding_rates_all_exchanges (env : Env) (symbol : String) :
    List FundingRateRecord :=
  let results := exchangeNames.map (runExchangeTask env symbol)
  (exchangeNames.zip results).map (fun nr => processResult symbol nr.1 nr.2)

/-- Outcome of one per-symbol task (`fetch_symbol`, lines 202-204): the
`(symbol, data)` pair, or an asyncio-level fault. -/
inductive SymbolTaskOutcome where
  | ok (symbol : String) (data : List FundingRateRecord)
  | exn (msg : String)
deriving Repr, DecidableEq

/-- One per-symbol task: a fault injected by `env.symbolTaskFault`, or the
pair `(symbol, get_funding_rates_all_exchanges(symbol))`. -/
def runSymbolTask (env : Env) (symbol : String) : SymbolTaskOutcome :=
  match env.symbolTaskFault symbol with
  | some msg => .exn msg
  | none => .ok symbol (get_funding_rates_all_exchanges env symbol)

/-- Python dict assignment `results[symbol] = data`: overwrite in place when
the key exists (keeping its insertion position), append otherwise. -/
def dictInsert {α : Type} (d : List (String × α)) (k : String) (v : α) :
    List (String × α) :=
  if d.any (fun kv => kv.1 = k) then
    d.map (fun kv => if kv.1 = k then (k, v) else kv)
  else
    d ++ [(k, v)]

/-- Embedding of `FundingRateCollector.get_multiple_symbols_funding_rates` (lines 198-220):
one task per requested symbol, gathered with `return_exceptions=True`; the
collection loop logs and SKIPS an exception outcome and stores a normal
outcome under its symbol key. -/
def get_multiple_symbols_funding_rates (env : Env) (symbols : List String) :
    List (String × List FundingRateRecord) :=
  (symbols.map (runSymbolTask env)).foldl
    (fun results r =>
      match r with
      | .exn _ => results
      | .ok symbol data => dictInsert results symbol data)
    []

/-- Embedding of `FundingRateCollector.get_successful_rates` (lines 223-225). -/
def get_successful_rates (results : List FundingRateRecord) :
    List FundingRateRecord :=
  results.filter (fun r => r.success)

/-- Embedding of `FundingRateCollector.get_failed_exchanges` (lines 227-229). -/
def get_failed_exchanges (results : List FundingRateRecord) : List String :=
  (results.filter (fun r => !r.success)).map (fun r => r.exchange)

/-! Lemmas about the completion-schedule model of `asyncio.gather`. -/

theorem fillSlots_length (outs : List TaskOutcome) (sched : List Nat)
    (slots : List (Option TaskOutcome)) :
    (fillSlots outs sched slots).length = slots.length := by
  induction sched generalizing slots with
  | nil => rfl
  | cons i rest ih =>
      show (fillSlots outs rest _).length = _
      cases h : outs.get? i with
      | none => simp only [fillSlots, List.foldl_cons, h]; exact ih slots
      | some o =>
          simp only [fillSlots, List.foldl_cons, h]
          rw [show List.foldl _ (slots.set i (some o)) rest =
                fillSlots outs rest (slots.set i (some o)) from rfl,
              ih, List.length_set]

theorem fillSlots_getElem_not_mem (outs : List TaskOutcome) (sched : List Nat)
    (slots : List (Option TaskOutcome)) (j : Nat) (hj : j ∉ sched) :
    (fillSlots outs sched slots)[j]? = slots[j]? := by
  induction sched generalizing slots with
  | nil => rfl
  | cons i rest ih =>
      have hji : j ≠ i := fun h => hj (h ▸ List.mem_cons_self i rest)
      have hjr : j ∉ rest := fun h => hj (List.mem_cons_of_mem i h)
      cases h : outs.get? i with
      | none => simp only [fillSlots, List.foldl_cons, h]; exact ih slots hjr
      | some o =>
          simp only [fillSlots, List.foldl_cons, h]
          rw [show List.foldl _ (slots.set i (some o)) rest =
                fillSlots outs rest (slots.set i (some o)) from rfl,
              ih _ hjr, List.getElem?_set_ne (Ne.symm hji)]

theorem fillSlots_getElem_mem (outs : List TaskOutcome) (sched : List Nat)
    (slots : List (Option TaskOutcome)) (j : Nat)
    (hlen : slots.length = outs.length) (hj : j ∈ sched)
    (hjl : j < outs.length) :
    (fillSlots outs sched slots)[j]? = Option.map some outs[j]? := by
  induction sched generalizing slots with
  | nil => cases hj
  | cons i rest ih =>
      by_cases hr : j ∈ rest
      · cases h : outs.get? i with
        | none => simp only [fillSlots, List.foldl_cons, h]; exact ih slots hlen hr
        | some o =>
            simp only [fillSlots, List.foldl_cons, h]
            rw [show List.foldl _ (slots.set i (some o)) rest =
                  fillSlots outs rest (slots.set i (some o)) from rfl]
            exact ih _ (by rw [List.length_set]; exact hlen) hr
      · have hij : j = i := by
          cases List.mem_cons.mp hj with
          | inl h => exact h
          | inr h => exact absurd h hr
        subst hij
        have hout : outs.get? j = some outs[j] :=
            List.get?_eq_get hjl
        simp only [fillSlots, List.foldl_cons, hout]
        rw [show List.foldl _ (slots.set j (some outs[j])) rest =
              fillSlots outs rest (slots.set j (some outs[j])) from rfl,
            fillSlots_getElem_not_mem outs rest _ j hr,
            List.getElem?_set_eq_of_lt _ (hlen ▸ hjl),
            List.getElem?_eq_getElem hjl]
        rfl

/-- Gathering under any completion schedule that covers every task index
returns the task outcomes in task order: the result is independent of
completion order. -/
theorem gatherSched_perm (outs : List TaskOutcome) (sched : List Nat)
    (h : sched.Perm (List.range outs.length)) :
    gatherSched outs sched = outs := by
  apply List.ext_getElem?
  intro j
  unfold gatherSched
  rw [List.getElem?_map]
  by_cases hjl : j < outs.length
  · have hmem : j ∈ sched := h.mem_iff.mpr (List.mem_range.mpr hjl)
    rw [fillSlots_getElem_mem outs sched _ j (List.length_replicate _ _) hmem hjl,
        List.getElem?_eq_getElem hjl]
    rfl
  · have hle : outs.length ≤ j := Nat.le_of_not_lt hjl
    rw [List.getElem?_eq_none hle,
        List.getElem?_eq_none (le_of_eq_of_le
          (by rw [fillSlots_length, List.length_replicate]) hle)]
    rfl

theorem zip_map_self {α β γ : Type} (l : List α) (f : α → β) (g : α → β → γ) :
    ((l.zip (l.map f)).map (fun p => g p.1 p.2)) = l.map (fun a => g a (f a)) := by
  induction l with
  | nil => rfl
  | cons a t ih => simp only [List.map_cons, List.zip_cons_cons, ih]

theorem allExchanges_eq_map (env : Env) (symbol : String) :
    get_funding_rates_all_exchanges env symbol =
      exchangeNames.map (perExchangeRecord env symbol) := by
  unfold get_funding_rates_all_exchanges perExchangeRecord
  exact zip_map_self exchangeNames (runExchangeTask env symbol)
    (fun n r => processResult symbol n r)

theorem allExchanges_sched_eq (env : Env) (symbol : String) (sched : List Nat)
    (hperm : sched.Perm (List.range exchangeNames.length)) :
    get_funding_rates_all_exchanges_sched env symbol sched =
      get_funding_rates_all_exchanges env symbol := by
  unfold get_funding_rates_all_exchanges_sched get_funding_rates_all_exchanges
  rw [gatherSched_perm]
  rw [List.length_map]
  exact hperm

/-! Every record names the exchange whose branch built it. -/

theorem kucoin_record_exchange (symbol : String) (res : KuCoinHttpResult) :
    (get_kucoin_funding_rate symbol res).exchange = "kucoin" := by
  unfold get_kucoin_funding_rate
  cases res with
  | exn e => rfl
  | resp r =>
      dsimp only
      split
      · split
        · rfl
        · rfl
      · rfl

theorem single_exchange_record_exchange (env : Env) (name symbol : String) :
    (get_funding_rate_single_exchange env name symbol).exchange = name := by
  unfold get_funding_rate_single_exchange
  split
  · rename_i h
    rw [kucoin_record_exchange, h]
  · split
    · split
      · rfl
      · rfl
    · rfl

theorem perExchangeRecord_exchange (env : Env) (symbol name : String) :
    (perExchangeRecord env symbol name).exchange = name := by
  unfold perExchangeRecord runExchangeTask
  cases env.exchangeTaskFault symbol name with
  | some msg => rfl
  | none => exact single_exchange_record_exchange env name symbol

theorem allExchanges_map_exchange (env : Env) (symbol : String) :
    (get_funding_rates_all_exchanges env symbol).map (fun r => r.exchange) =
      exchangeNames := by
  rw [allExchanges_eq_map, List.map_map]
  have h : ∀ n ∈ exchangeNames,
      ((fun r => r.exchange) ∘ perExchangeRecord env symbol) n = id n :=
    fun n _ => perExchangeRecord_exchange env symbol n
  rw [List.map_congr_left h, List.map_id]

/-! Concrete environments used by witnesses and counterexamples. -/

/-- An environment in which every network interaction fails. -/
def envAllFail : Env :=
  { kucoinResp := fun _ => .exn "connection refused",
    fetchOutcome := fun _ _ => .raise "symbol not found",
    exchangeTaskFault := fun _ _ => none,
    symbolTaskFault := fun _ => none }

/-- An environment in which the ccxt adapters return a payload with every
field absent. -/
def envEmptyPayload : Env :=
  { kucoinResp := fun _ => .exn "connection refused",
    fetchOutcome := fun _ _ =>
      .payload { fundingRate := none, fundingDatetime := none,
                 nextFundingDatetime := none, timestamp := none },
    exchangeTaskFault := fun _ _ => none,
    symbolTaskFault := fun _ => none }

/-- An environment in which the KuCoin direct call fully succeeds. -/
def envKucoinOk : Env :=
  { kucoinResp := fun _ =>
      .resp { status := 200, bodyText := "",
              json := { code := some "200000",
                        data := some { value := some 1, timePoint := some 123 },
                        msg := none } },
    fetchOutcome := fun _ _ => .raise "symbol not found",
    exchangeTaskFault := fun _ _ => none,
    symbolTaskFault := fun _ => none }

/-- An environment in which the okx task suffers an asyncio-level fault. -/
def envOkxFault : Env :=
  { kucoinResp := fun _ => .exn "connection refused",
    fetchOutcome := fun _ _ => .raise "symbol not found",
    exchangeTaskFault := fun _ n => if n = "okx" then some "task exploded" else none,
    symbolTaskFault := fun _ => none }

/-- An environment in which the per-symbol task for BTC/USDT suffers an
asyncio-level fault. -/
def envSymbolFault : Env :=
  { kucoinResp := fun _ => .exn "connection refused",
    fetchOutcome := fun _ _ => .raise "symbol not found",
    exchangeTaskFault := fun _ _ => none,
    symbolTaskFault := fun s => if s = "BTC/USDT" then some "task cancelled" else none }

/-- C1: for every environment and logical symbol, and every completion
schedule covering all task indices, the all-exchanges fetch returns exactly
one record per configured exchange, in the static configuration order
bitget, huobi, kucoin, bybit, bingx, gateio, okx, mexc — independent of
which task completes first. -/
theorem c1_one_record_per_exchange_in_config_order (env : Env) (symbol : String)
    (sched : List Nat) (hperm : sched.Perm (List.range exchangeNames.length)) :
    ((get_funding_rates_all_exchanges_sched env symbol sched).map
        (fun r => r.exchange) = exchangeNames) ∧ exchangeNames.Nodup := by
  refine ⟨?_, by decide⟩
  rw [allExchanges_sched_eq env symbol sched hperm]
  exact allExchanges_map_exchange env symbol

/-- Witness for C1: a reversed completion schedule still yields the records
in configuration order. -/
theorem c1_witness :
    ([7, 6, 5, 4, 3, 2, 1, 0] : List Nat).Perm (List.range exchangeNames.length) ∧
    ((get_funding_rates_all_exchanges_sched envAllFail "BTC/USDT"
        [7, 6, 5, 4, 3, 2, 1, 0]).map (fun r => r.exchange) = exchangeNames) :=
  ⟨by decide,
   (c1_one_record_per_exchange_in_config_order envAllFail "BTC/USDT"
      [7, 6, 5, 4, 3, 2, 1, 0] (by decide)).1⟩

/-- C5: an asyncio-level fault of one exchange task is converted into a
failure record carrying the resolver's candidate as `perpetual_symbol` and
the fault message as `error`; the other exchanges' records are the same as
in the fault-free environment, and the overall call still returns one
outcome per configured exchange. -/
theorem c5_task_fault_isolated (env : Env) (symbol name msg : String)
    (hf : env.exchangeTaskFault symbol name = some msg) :
    (get_funding_rates_all_exchanges env symbol).length = exchangeNames.length ∧
    perExchangeRecord env symbol name =
      { exchange := name, symbol := symbol,
        perpetual_symbol := get_perpetual_symbol name (stripQuote symbol),
        funding_rate := none, funding_time := none, next_funding_time := none,
        timestamp := none, success := false, error := some msg } ∧
    (∀ other, other ≠ name →
      perExchangeRecord env symbol other =
        perExchangeRecord
          { env with exchangeTaskFault :=
              fun s n => if n = name then none else env.exchangeTaskFault s n }
          symbol other) ∧
    get_funding_rates_all_exchanges env symbol =
      exchangeNames.map (perExchangeRecord env symbol) := by
  refine ⟨?_, ?_, ?_, allExchanges_eq_map env symbol⟩
  · rw [allExchanges_eq_map, List.length_map]
  · unfold perExchangeRecord runExchangeTask
    rw [hf]
    rfl
  · intro other hne
    unfold perExchangeRecord runExchangeTask
    have heq : (if other = name then none else env.exchangeTaskFault symbol other) =
        env.exchangeTaskFault symbol other := if_neg hne
    show processResult symbol other
        (match env.exchangeTaskFault symbol other with
          | some m => TaskOutcome.exn m
          | none => TaskOutcome.ok (get_funding_rate_single_exchange env other symbol)) =
      processResult symbol other
        (match (if other = name then none else env.exchangeTaskFault symbol other) with
          | some m => TaskOutcome.exn m
          | none => TaskOutcome.ok (get_funding_rate_single_exchange
              { env with exchangeTaskFault :=
                  fun s n => if n = name then none else env.exchangeTaskFault s n }
              other symbol))
    rw [heq]
    cases env.exchangeTaskFault symbol other with
    | some m => rfl
    | none => rfl

/-- Witness for C5 at a concrete faulting environment. -/
theorem c5_witness :
    envOkxFault.exchangeTaskFault "BTC/USDT" "okx" = some "task exploded" ∧
    perExchangeRecord envOkxFault "BTC/USDT" "okx" =
      { exchange := "okx", symbol := "BTC/USDT",
        perpetual_symbol := get_perpetual_symbol "okx" (stripQuote "BTC/USDT"),
        funding_rate := none, funding_time := none, next_funding_time := none,
        timestamp := none, success := false, error := some "task exploded" } :=
  ⟨rfl, (c5_task_fault_isolated envOkxFault "BTC/USDT" "okx" "task exploded" rfl).2.1⟩

/-- C6: when the single ccxt candidate for a (non-KuCoin) exchange fails,
the record is a failure with `funding_rate` null, `perpetual_symbol` the
resolver's (first and only) candidate, and `error` the (last and only)
failure message. -/
theorem c6_all_candidates_fail (env : Env) (name symbol msg : String)
    (hk : name ≠ "kucoin") (hmem : name ∈ exchangeNames)
    (hf : env.fetchOutcome name (get_perpetual_symbol name (stripQuote symbol)) =
      .raise msg) :
    (get_funding_rate_single_exchange env name symbol).success = false ∧
    (get_funding_rate_single_exchange env name symbol).funding_rate = none ∧
    (get_funding_rate_single_exchange env name symbol).perpetual_symbol =
      get_perpetual_symbol name (stripQuote symbol) ∧
    (get_funding_rate_single_exchange env name symbol).error = some msg := by
  unfold get_funding_rate_single_exchange
  rw [if_neg hk, if_pos hmem, hf]
  exact ⟨rfl, rfl, rfl, rfl⟩

/-- Witness for C6 at a concrete failing environment. -/
theorem c6_witness :
    ("okx" : String) ≠ "kucoin" ∧ "okx" ∈ exchangeNames ∧
    envAllFail.fetchOutcome "okx" (get_perpetual_symbol "okx" (stripQuote "BTC/USDT")) =
      .raise "symbol not found" ∧
    (get_funding_rate_single_exchange envAllFail "okx" "BTC/USDT").error =
      some "symbol not found" :=
  ⟨by decide, by decide, rfl,
   (c6_all_candidates_fail envAllFail "okx" "BTC/USDT" "symbol not found"
      (by decide) (by decide) rfl).2.2.2⟩

/-- C9: every record built by the KuCoin direct adapter has null
`funding_time` and `next_funding_time` and carries the input symbol
unchanged. -/
theorem c9_kucoin_no_funding_times (symbol : String) (res : KuCoinHttpResult) :
    (get_kucoin_funding_rate symbol res).funding_time = none ∧
    (get_kucoin_funding_rate symbol res).next_funding_time = none ∧
    (get_kucoin_funding_rate symbol res).symbol = symbol := by
  unfold get_kucoin_funding_rate
  split
  · exact ⟨rfl, rfl, rfl⟩
  · split
    · split
      · exact ⟨rfl, rfl, rfl⟩
      · exact ⟨rfl, rfl, rfl⟩
    · exact ⟨rfl, rfl, rfl⟩

/-- C10: `get_successful_rates` keeps exactly the successful records in
input order, `get_failed_exchanges` lists exactly the failed records'
exchanges in input order, and the two outputs account for every input
record exactly once. -/
theorem c10_filters_partition (l : List FundingRateRecord) :
    (get_successful_rates l).Sublist l ∧
    (∀ r ∈ get_successful_rates l, r.success = true) ∧
    (∀ r ∈ l, r.success = true → r ∈ get_successful_rates l) ∧
    get_failed_exchanges l =
      (l.filter (fun r => r.success = false)).map (fun r => r.exchange) ∧
    (get_failed_exchanges l).Sublist (l.map (fun r => r.exchange)) ∧
    (get_successful_rates l).length + (get_failed_exchanges l).length =
      l.length := by
  have hpred : ∀ r : FundingRateRecord, (!r.success) = decide (r.success = false) := by
    intro r
    cases r.success <;> rfl
  have hfe : get_failed_exchanges l =
      (l.filter (fun r => r.success = false)).map (fun r => r.exchange) := by
    unfold get_failed_exchanges
    rw [List.filter_congr (fun r _ => hpred r)]
  refine ⟨List.filter_sublist l, ?_, ?_, hfe, ?_, ?_⟩
  · intro r hr
    exact (List.mem_filter.mp hr).2
  · intro r hr hs
    exact List.mem_filter.mpr ⟨hr, hs⟩
  · unfold get_failed_exchanges
    exact (List.filter_sublist l).map (fun r => r.exchange)
  · unfold get_successful_rates get_failed_exchanges
    rw [List.length_map]
    have hperm := List.filter_append_perm (fun r : FundingRateRecord => r.success) l
    have := hperm.length_eq
    rw [List.length_append] at this
    exact this

/-- A concrete successful record, used in witnesses. -/
def recS : FundingRateRecord :=
  { exchange := "bitget", symbol := "BTC/USDT",
    perpetual_symbol := "BTC/USDT:USDT", funding_rate := some 1,
    funding_time := none, next_funding_time := none, timestamp := some 5,
    success := true, error := none }

/-- A concrete failed record, used in witnesses. -/
def recF : FundingRateRecord :=
  { exchange := "okx", symbol := "BTC/USDT",
    perpetual_symbol := "BTC-USDT-SWAP", funding_rate := none,
    funding_time := none, next_funding_time := none, timestamp := none,
    success := false, error := some "404 not found" }

/-- Witness for C10 on a concrete two-record list. -/
theorem c10_witness :
    recS ∈ [recS, recF] ∧ recS.success = true ∧
    recS ∈ get_successful_rates [recS, recF] :=
  ⟨List.mem_cons_self recS [recF], rfl,
   (c10_filters_partition [recS, recF]).2.2.1 recS
     (List.mem_cons_self recS [recF]) rfl⟩

/-- Counterexample to C2 as stated: with a ccxt payload that lacks the
`fundingRate` field, the generic path still builds a record with
`success=true` but `funding_rate` null — the claimed
"success implies funding_rate present" fails. -/
theorem c2_counterexample :
    (get_funding_rate_single_exchange envEmptyPayload "bitget" "BTC/USDT").success =
      true ∧
    (get_funding_rate_single_exchange envEmptyPayload "bitget" "BTC/USDT").funding_rate =
      none :=
  ⟨rfl, rfl⟩

/-- C2 as amended: `success=false` implies `funding_rate` null, and
`success=true` implies `error` null, for every record the fan-out can build;
the stronger "success implies funding_rate non-null" holds only on the
KuCoin direct path (where an absent `value` is defaulted to 0), not on the
generic ccxt path. -/
theorem single_exchange_invariant (env : Env) (name symbol : String) :
    ((get_funding_rate_single_exchange env name symbol).success = false →
      (get_funding_rate_single_exchange env name symbol).funding_rate = none) ∧
    ((get_funding_rate_single_exchange env name symbol).success = true →
      (get_funding_rate_single_exchange env name symbol).error = none) ∧
    (name = "kucoin" →
      (get_funding_rate_single_exchange env name symbol).success = true →
      ((get_funding_rate_single_exchange env name symbol).funding_rate).isSome =
        true) := by
  unfold get_funding_rate_single_exchange
  split
  · unfold get_kucoin_funding_rate
    split
    · exact ⟨fun _ => rfl, fun h => Bool.noConfusion h,
             fun _ h => Bool.noConfusion h⟩
    · split
      · split
        · exact ⟨fun h => Bool.noConfusion h, fun _ => rfl, fun _ _ => rfl⟩
        · exact ⟨fun _ => rfl, fun h => Bool.noConfusion h,
                 fun _ h => Bool.noConfusion h⟩
      · exact ⟨fun _ => rfl, fun h => Bool.noConfusion h,
               fun _ h => Bool.noConfusion h⟩
  · rename_i hnk
    split
    · split
      · exact ⟨fun h => Bool.noConfusion h, fun _ => rfl,
               fun hkc _ => absurd hkc hnk⟩
      · exact ⟨fun _ => rfl, fun h => Bool.noConfusion h,
               fun _ h => Bool.noConfusion h⟩
    · exact ⟨fun _ => rfl, fun h => Bool.noConfusion h,
             fun _ h => Bool.noConfusion h⟩

theorem c2_amended_invariant (env : Env) (symbol name : String) :
    ((perExchangeRecord env symbol name).success = false →
      (perExchangeRecord env symbol name).funding_rate = none) ∧
    ((perExchangeRecord env symbol name).success = true →
      (perExchangeRecord env symbol name).error = none) ∧
    (name = "kucoin" → (perExchangeRecord env symbol name).success = true →
      ((perExchangeRecord env symbol name).funding_rate).isSome = true) := by
  unfold perExchangeRecord runExchangeTask
  cases env.exchangeTaskFault symbol name with
  | some msg =>
      exact ⟨fun _ => rfl, fun h => Bool.noConfusion h,
             fun _ h => Bool.noConfusion h⟩
  | none => exact single_exchange_invariant env name symbol

/-- Witness for C2 (amended): a KuCoin success record carries a non-null
funding rate. -/
theorem c2_witness :
    (perExchangeRecord envKucoinOk "BTC/USDT" "kucoin").success = true ∧
    ((perExchangeRecord envKucoinOk "BTC/USDT" "kucoin").funding_rate).isSome =
      true :=
  ⟨rfl, (c2_amended_invariant envKucoinOk "BTC/USDT" "kucoin").2.2 rfl rfl⟩

/-- A KuCoin success envelope whose data object lacks the `value` field. -/
def respNoValue : KuCoinHttpResponse :=
  { status := 200, bodyText := "",
    json := { code := some "200000",
              data := some { value := none, timePoint := some 123 },
              msg := none } }

/-- Counterexample to C3 as stated: a KuCoin success envelope whose data
object lacks `value` yields `funding_rate = 0`, not null — the code's
`funding_data.get('value', 0)` defaults the absent field to zero. -/
theorem c3_counterexample :
    (get_kucoin_funding_rate "BTC/USDT" (.resp respNoValue)).success = true ∧
    (get_kucoin_funding_rate "BTC/USDT" (.resp respNoValue)).funding_rate =
      some 0 ∧
    (get_kucoin_funding_rate "BTC/USDT" (.resp respNoValue)).funding_rate ≠
      none :=
  ⟨rfl, rfl, fun h => Option.noConfusion h⟩

/-- C3 as amended: on the generic ccxt path every payload field passes
through unchanged (absent becomes null); on the KuCoin success path
`timestamp` passes `timePoint` through (absent becomes null) but the
`value` field is defaulted to 0 when absent, so `funding_rate` is never
null on success. -/
theorem c3_amended_passthrough :
    (∀ (symbol body : String) (e : KuCoinEnvelope), e.code = some "200000" →
      kuCoinDataTruthy e.data = true →
      (get_kucoin_funding_rate symbol
          (.resp { status := 200, bodyText := body, json := e })).funding_rate =
        some (kuCoinDataValue e.data) ∧
      (get_kucoin_funding_rate symbol
          (.resp { status := 200, bodyText := body, json := e })).timestamp =
        kuCoinDataTimePoint e.data) ∧
    (∀ (env : Env) (name symbol : String) (p : CcxtPayload),
      name ≠ "kucoin" → name ∈ exchangeNames →
      env.fetchOutcome name (get_perpetual_symbol name (stripQuote symbol)) =
        .payload p →
      (get_funding_rate_single_exchange env name symbol).funding_rate =
        p.fundingRate ∧
      (get_funding_rate_single_exchange env name symbol).funding_time =
        p.fundingDatetime ∧
      (get_funding_rate_single_exchange env name symbol).next_funding_time =
        p.nextFundingDatetime ∧
      (get_funding_rate_single_exchange env name symbol).timestamp =
        p.timestamp) := by
  constructor
  · intro symbol body e h1 h2
    unfold get_kucoin_funding_rate
    dsimp only
    rw [if_pos rfl, if_pos ⟨h1, h2⟩]
    exact ⟨rfl, rfl⟩
  · intro env name symbol p hk hmem hf
    unfold get_funding_rate_single_exchange
    rw [if_neg hk, if_pos hmem, hf]
    exact ⟨rfl, rfl, rfl, rfl⟩

/-- Witness for C3 (amended) at the concrete no-value envelope. -/
theorem c3_witness :
    respNoValue.json.code = some "200000" ∧
    kuCoinDataTruthy respNoValue.json.data = true ∧
    (get_kucoin_funding_rate "BTC/USDT" (.resp respNoValue)).timestamp =
      kuCoinDataTimePoint respNoValue.json.data :=
  ⟨rfl, rfl,
   (c3_amended_passthrough.1 "BTC/USDT" "" respNoValue.json rfl rfl).2⟩

/-- A status-200, code-200000 response whose data object is present but
empty (`data: \x7b\x7d`): every schema field is absent. -/
def respEmptyData : KuCoinHttpResponse :=
  { status := 200, bodyText := "",
    json := { code := some "200000",
              data := some { value := none, timePoint := none },
              msg := none } }

/-- Counterexample to C7 as stated: with HTTP 200, embedded code "200000"
and a PRESENT (but empty, hence Python-falsy) data object, the adapter
produces a failure record, not a success — "present" is not the actual
success condition, truthiness is. -/
theorem c7_counterexample :
    respEmptyData.status = 200 ∧
    respEmptyData.json.code = some "200000" ∧
    respEmptyData.json.data.isSome = true ∧
    (get_kucoin_funding_rate "BTC/USDT" (.resp respEmptyData)).success = false ∧
    (get_kucoin_funding_rate "BTC/USDT" (.resp respEmptyData)).error =
      some "KuCoin API error: Unknown error" :=
  ⟨rfl, rfl, rfl, rfl, rfl⟩

/-- C7 as amended: the adapter reports success exactly when the HTTP status
is 200, the embedded code is "200000" and the data object is present and
truthy (non-empty); a non-200 status yields a failure record carrying
`HTTP status: body`, an embedded failure yields `KuCoin API error: msg`
(defaulting to "Unknown error"), and an exception yields its message —
never a raised fault. -/
theorem c7_amended_success_condition (symbol : String) (res : KuCoinHttpResult) :
    ((get_kucoin_funding_rate symbol res).success = true ↔
      ∃ r, res = .resp r ∧ r.status = 200 ∧ r.json.code = some "200000" ∧
        kuCoinDataTruthy r.json.data = true) ∧
    (∀ r, res = .resp r → r.status = 200 →
      ¬(r.json.code = some "200000" ∧ kuCoinDataTruthy r.json.data = true) →
      (get_kucoin_funding_rate symbol res).error =
        some ("KuCoin API error: " ++ r.json.msg.getD "Unknown error")) ∧
    (∀ r, res = .resp r → r.status ≠ 200 →
      (get_kucoin_funding_rate symbol res).error =
        some ("HTTP " ++ toString r.status ++ ": " ++ r.bodyText)) ∧
    (∀ e, res = .exn e →
      (get_kucoin_funding_rate symbol res).error = some e) := by
  cases res with
  | exn e =>
      refine ⟨⟨fun h => Bool.noConfusion h, ?_⟩, ?_, ?_, ?_⟩
      · rintro ⟨r, hr, -⟩
        exact KuCoinHttpResult.noConfusion hr
      · intro r hr
        exact absurd hr (fun h => KuCoinHttpResult.noConfusion h)
      · intro r hr
        exact absurd hr (fun h => KuCoinHttpResult.noConfusion h)
      · intro e0 he
        cases he
        rfl
  | resp r =>
      unfold get_kucoin_funding_rate
      dsimp only
      by_cases h1 : r.status = 200
      · by_cases h2 : r.json.code = some "200000" ∧ kuCoinDataTruthy r.json.data
        · rw [if_pos h1, if_pos h2]
          refine ⟨⟨fun _ => ⟨r, rfl, h1, h2.1, h2.2⟩, fun _ => rfl⟩, ?_, ?_, ?_⟩
          · intro r0 hr0
            cases hr0
            intro _ hnot
            exact absurd ⟨h2.1, h2.2⟩ hnot
          · intro r0 hr0
            cases hr0
            intro hne
            exact absurd h1 hne
          · intro e0 he
            exact KuCoinHttpResult.noConfusion he
        · rw [if_pos h1, if_neg h2]
          refine ⟨⟨fun h => Bool.noConfusion h, ?_⟩, ?_, ?_, ?_⟩
          · rintro ⟨r0, hr0, -, hc, ht⟩
            cases hr0
            exact absurd ⟨hc, ht⟩ h2
          · intro r0 hr0
            cases hr0
            intro _ _
            rfl
          · intro r0 hr0
            cases hr0
            intro hne
            exact absurd h1 hne
          · intro e0 he
            exact KuCoinHttpResult.noConfusion he
      · rw [if_neg h1]
        refine ⟨⟨fun h => Bool.noConfusion h, ?_⟩, ?_, ?_, ?_⟩
        · rintro ⟨r0, hr0, hs, -⟩
          cases hr0
          exact absurd hs h1
        · intro r0 hr0
          cases hr0
          intro hs
          exact absurd hs h1
        · intro r0 hr0
          cases hr0
          intro _
          rfl
        · intro e0 he
          exact KuCoinHttpResult.noConfusion he

/-- A concrete non-2xx response used by the C7 witness. -/
def resp404 : KuCoinHttpResponse :=
  { status := 404, bodyText := "not found",
    json := { code := none, data := none, msg := none } }

/-- Witness for C7 (amended): a 404 yields a failure record with the HTTP
detail as the error string. -/
theorem c7_witness :
    resp404.status ≠ 200 ∧
    (get_kucoin_funding_rate "BTC/USDT" (.resp resp404)).error =
      some ("HTTP " ++ toString resp404.status ++ ": " ++ resp404.bodyText) :=
  ⟨by decide,
   (c7_amended_success_condition "BTC/USDT" (.resp resp404)).2.2.1 resp404 rfl
     (by decide)⟩

/-- Counterexample to C8 as stated: an unknown ExchangeId is not fatal — the
resolver silently returns the generic fallback `BASE/USDT`. -/
theorem c8_counterexample :
    ¬ "notanexchange" ∈ resolverKnownIds ∧
    get_perpetual_symbol "notanexchange" "BTC" = "BTC/USDT" :=
  ⟨by decide, by decide⟩

/-- C8 as amended: the resolver is a pure, total, deterministic function
returning one non-empty candidate; an unknown ExchangeId is not a failure
but silently maps to the generic fallback `BASE/USDT`. -/
theorem c8_amended_resolver (name base : String) :
    (¬ name ∈ resolverKnownIds → get_perpetual_symbol name base =
      base ++ "/USDT") ∧
    0 < (get_perpetual_symbol name base).length := by
  constructor
  · intro h
    simp only [resolverKnownIds, List.mem_cons, List.not_mem_nil, or_false,
      not_or] at h
    obtain ⟨h1, h2, h3, h4, h5, h6, h7, h8, h9⟩ := h
    unfold get_perpetual_symbol
    rw [if_neg h1, if_neg h2, if_neg h3, if_neg h4, if_neg h5, if_neg h6,
      if_neg h7, if_neg h8, if_neg h9]
  · have hx : ∀ b t : String, 0 < t.length → 0 < (b ++ t).length := by
      intro b t ht
      rw [String.length_append]
      omega
    unfold get_perpetual_symbol
    split
    · exact hx _ _ (by decide)
    · split
      · exact hx _ _ (by decide)
      · split
        · exact hx _ _ (by decide)
        · split
          · exact hx _ _ (by decide)
          · split
            · exact hx _ _ (by decide)
            · split
              · exact hx _ _ (by decide)
              · split
                · exact hx _ _ (by decide)
                · split
                  · exact hx _ _ (by decide)
                  · split
                    · exact hx _ _ (by decide)
                    · exact hx _ _ (by decide)

/-- Witness for C8 (amended) at a concrete unknown exchange id. -/
theorem c8_witness :
    ¬ "foo" ∈ resolverKnownIds ∧
    get_perpetual_symbol "foo" "ETH" = "ETH" ++ "/USDT" :=
  ⟨by decide, (c8_amended_resolver "foo" "ETH").1 (by decide)⟩

/-! Python-dict semantics lemmas used to settle C4. -/

theorem dictInsert_keys {α : Type} (d : List (String × α)) (k : String) (v : α) :
    (dictInsert d k v).map Prod.fst =
      if d.any (fun kv => kv.1 = k) then d.map Prod.fst
      else d.map Prod.fst ++ [k] := by
  unfold dictInsert
  split
  · rw [List.map_map]
    apply List.map_congr_left
    intro kv _
    show Prod.fst (if kv.1 = k then (k, v) else kv) = kv.1
    by_cases h : kv.1 = k
    · rw [if_pos h]
      exact h.symm
    · rw [if_neg h]
  · rw [List.map_append]
    rfl

theorem dictInsert_keys_nodup {α : Type} (d : List (String × α)) (k : String)
    (v : α) (h : (d.map Prod.fst).Nodup) :
    ((dictInsert d k v).map Prod.fst).Nodup := by
  rw [dictInsert_keys]
  split
  · exact h
  · rename_i hany
    rw [List.nodup_append]
    refine ⟨h, List.nodup_singleton k, ?_⟩
    intro a ha hak
    rw [List.mem_singleton] at hak
    subst hak
    obtain ⟨kv, hkv, hfst⟩ := List.mem_map.mp ha
    exact hany (List.any_eq_true.mpr ⟨kv, hkv, decide_eq_true hfst⟩)

theorem mem_keys_dictInsert {α : Type} (d : List (String × α)) (k a : String)
    (v : α) :
    a ∈ (dictInsert d k v).map Prod.fst ↔ a = k ∨ a ∈ d.map Prod.fst := by
  rw [dictInsert_keys]
  split
  · rename_i hany
    constructor
    · exact fun h => Or.inr h
    · intro h
      cases h with
      | inr h => exact h
      | inl h =>
          subst h
          obtain ⟨kv, hkv, hp⟩ := List.any_eq_true.mp hany
          exact List.mem_map.mpr ⟨kv, hkv, of_decide_eq_true hp⟩
  · rw [List.mem_append, List.mem_singleton]
    exact or_comm

theorem dictInsert_forall {α : Type} (P : String × α → Prop)
    (d : List (String × α)) (k : String) (v : α)
    (hd : ∀ kv ∈ d, P kv) (hkv : P (k, v)) :
    ∀ kv ∈ dictInsert d k v, P kv := by
  unfold dictInsert
  split
  · intro kv hm
    obtain ⟨kv0, hkv0, heq⟩ := List.mem_map.mp hm
    by_cases h : kv0.1 = k
    · rw [if_pos h] at heq
      rw [← heq]
      exact hkv
    · rw [if_neg h] at heq
      rw [← heq]
      exact hd kv0 hkv0
  · intro kv hm
    rw [List.mem_append, List.mem_singleton] at hm
    cases hm with
    | inl h => exact hd kv h
    | inr h =>
        subst h
        exact hkv

theorem foldl_dictInsert_nodup {α : Type} (f : String → α)
    (symbols : List String) :
    ∀ acc : List (String × α), (acc.map Prod.fst).Nodup →
      ((symbols.foldl (fun d s => dictInsert d s (f s)) acc).map Prod.fst).Nodup := by
  induction symbols with
  | nil => exact fun acc h => h
  | cons s rest ih =>
      intro acc h
      exact ih _ (dictInsert_keys_nodup acc s (f s) h)

theorem foldl_dictInsert_mem {α : Type} (f : String → α)
    (symbols : List String) :
    ∀ (acc : List (String × α)) (a : String),
      (a ∈ (symbols.foldl (fun d s => dictInsert d s (f s)) acc).map Prod.fst ↔
        a ∈ acc.map Prod.fst ∨ a ∈ symbols) := by
  induction symbols with
  | nil =>
      intro acc a
      simp
  | cons s rest ih =>
      intro acc a
      rw [List.foldl_cons, ih (dictInsert acc s (f s)) a,
        mem_keys_dictInsert, List.mem_cons]
      tauto

theorem foldl_dictInsert_forall {α : Type} (f : String → α)
    (P : String × α → Prop) (hP : ∀ s, P (s, f s)) (symbols : List String) :
    ∀ acc, (∀ kv ∈ acc, P kv) →
      ∀ kv ∈ symbols.foldl (fun d s => dictInsert d s (f s)) acc, P kv := by
  induction symbols with
  | nil => exact fun acc h => h
  | cons s rest ih =>
      intro acc h
      exact ih _ (dictInsert_forall P acc s (f s) h (hP s))

/-- The multi-symbol collector equals the dict-insertion fold over exactly
those requested symbols whose task did not fault: the collection loop skips
an exception outcome and inserts a normal outcome under its symbol key. -/
theorem multiple_symbols_eq_filter_fold (env : Env) (symbols : List String) :
    get_multiple_symbols_funding_rates env symbols =
      (symbols.filter (fun s => (env.symbolTaskFault s).isNone)).foldl
        (fun d s => dictInsert d s (get_funding_rates_all_exchanges env s)) [] := by
  unfold get_multiple_symbols_funding_rates
  have main : ∀ (syms : List String)
      (acc : List (String × List FundingRateRecord)),
      (syms.map (runSymbolTask env)).foldl
          (fun results r =>
            match r with
            | .exn _ => results
            | .ok symbol data => dictInsert results symbol data) acc =
        (syms.filter (fun s => (env.symbolTaskFault s).isNone)).foldl
          (fun d s => dictInsert d s (get_funding_rates_all_exchanges env s))
          acc := by
    intro syms
    induction syms with
    | nil => exact fun acc => rfl
    | cons s rest ih =>
        intro acc
        rw [List.map_cons, List.foldl_cons]
        cases hf : env.symbolTaskFault s with
        | some m =>
            have h1 : runSymbolTask env s = .exn m := by
              unfold runSymbolTask
              rw [hf]
            have h2 : (s :: rest).filter (fun x => (env.symbolTaskFault x).isNone) =
                rest.filter (fun x => (env.symbolTaskFault x).isNone) :=
              List.filter_cons_of_neg (by rw [hf]; exact fun h => Bool.noConfusion h)
            rw [h1, h2]
            exact ih acc
        | none =>
            have h1 : runSymbolTask env s =
                .ok s (get_funding_rates_all_exchanges env s) := by
              unfold runSymbolTask
              rw [hf]
            have h2 : (s :: rest).filter (fun x => (env.symbolTaskFault x).isNone) =
                s :: rest.filter (fun x => (env.symbolTaskFault x).isNone) :=
              List.filter_cons_of_pos (by rw [hf]; rfl)
            rw [h1, h2, List.foldl_cons]
            exact ih _
  exact main symbols []

/-- Counterexample to C4 as stated: when a symbol's task suffers an
asyncio-level fault, the collection loop logs and skips it, so the symbol
is ABSENT from the aggregate report. -/
theorem c4_counterexample :
    envSymbolFault.symbolTaskFault "BTC/USDT" = some "task cancelled" ∧
    get_multiple_symbols_funding_rates envSymbolFault ["BTC/USDT"] = [] ∧
    ¬ "BTC/USDT" ∈
      (get_multiple_symbols_funding_rates envSymbolFault ["BTC/USDT"]).map
        Prod.fst := by
  refine ⟨rfl, rfl, fun h => ?_⟩
  rw [show get_multiple_symbols_funding_rates envSymbolFault ["BTC/USDT"] =
        ([] : List (String × List FundingRateRecord)) from rfl] at h
  exact List.not_mem_nil _ h

/-- C4 as amended: for every environment and every requested symbol list,
the aggregate report's keys are distinct, and a symbol appears in the report
exactly when it was requested AND its task did not suffer an unhandled
asyncio-level fault — so a faulted symbol is dropped and a duplicate request
collapses into one entry; every entry present holds that symbol's
ExchangeReport with one record per configured exchange; the call itself
always returns normally. -/
theorem c4_amended_aggregate_report (env : Env) (symbols : List String) :
    ((get_multiple_symbols_funding_rates env symbols).map Prod.fst).Nodup ∧
    (∀ a, a ∈ (get_multiple_symbols_funding_rates env symbols).map Prod.fst ↔
      a ∈ symbols ∧ env.symbolTaskFault a = none) ∧
    (∀ kv ∈ get_multiple_symbols_funding_rates env symbols,
      kv.2 = get_funding_rates_all_exchanges env kv.1 ∧
      kv.2.map (fun r => r.exchange) = exchangeNames) := by
  rw [multiple_symbols_eq_filter_fold env symbols]
  refine ⟨foldl_dictInsert_nodup _ _ [] (by simp), ?_, ?_⟩
  · intro a
    rw [foldl_dictInsert_mem]
    simp only [List.map_nil, List.not_mem_nil, false_or]
    rw [List.mem_filter, Option.isNone_iff_eq_none]
  · refine foldl_dictInsert_forall _
      (fun kv => kv.2 = get_funding_rates_all_exchanges env kv.1 ∧
        kv.2.map (fun r => r.exchange) = exchangeNames)
      (fun s => ⟨rfl, allExchanges_map_exchange env s⟩) _ [] ?_
    intro kv h
    exact absurd h (List.not_mem_nil kv)

/-- Witness for C4 (amended) on a mixed run: one requested symbol's task
faults and is dropped, the other completes and appears. -/
theorem c4_witness :
    envSymbolFault.symbolTaskFault "BTC/USDT" = some "task cancelled" ∧
    envSymbolFault.symbolTaskFault "ETH/USDT" = none ∧
    "ETH/USDT" ∈ (get_multiple_symbols_funding_rates envSymbolFault
        ["BTC/USDT", "ETH/USDT"]).map Prod.fst ∧
    ¬ "BTC/USDT" ∈ (get_multiple_symbols_funding_rates envSymbolFault
        ["BTC/USDT", "ETH/USDT"]).map Prod.fst :=
  ⟨rfl, rfl,
   ((c4_amended_aggregate_report envSymbolFault
       ["BTC/USDT", "ETH/USDT"]).2.1 "ETH/USDT").mpr ⟨by decide, rfl⟩,
   fun h => Option.noConfusion
     (((c4_amended_aggregate_report envSymbolFault
         ["BTC/USDT", "ETH/USDT"]).2.1 "BTC/USDT").mp h).2⟩
